import Mathlib

/-!
# Formal model of the sambo-whatsapp-bot session pipeline

A shallow embedding of the core session / debounce / extraction pipeline of
the `sambo-whatsapp-bot` repository, translated from:

* `src/services/processorService.ts` (processSession, handleConfirmation,
  handleCancellation, handleEditPrice, handlePriceUpdate)
* `src/services/bufferService.ts` (Vercel-KV session store)
* `src/services/imageService.ts` (deleteImages, deleteSessionImages,
  deleteExcessImages, moveImagesToPermanent)
* `src/services/aiService.ts` (extractVehicleData, validateExtraction,
  normalizeTransmission, parsePrice)
* `src/controllers/webhookController.ts` (handleTextMessage,
  handleImageMessage)
* `src/types/extraction.ts` (SessionData, VehicleExtraction, SessionImage)

Modelling conventions:

* The store is modelled per sender: one optional `SessionData` plus the
  debounce-timer flag (the two Vercel-KV keys of one phone number).  TTL
  eviction (real time) is not modelled; `Date.now()` is threaded as an
  explicit `now : Nat` argument to every operation that calls
  `saveSession`.
* External collaborators (Gemini, prisma, Cloudinary upload, WhatsApp
  sends) are parameters bundled in `Env`.  A collaborator call that the
  TypeScript code lets throw is given an `Except Unit` result (or a `Bool`
  success flag); calls whose failures the code catches internally and never
  re-throws (`deleteImages`, `deleteSessionImages`, `moveImagesToPermanent`
  per image, the Gemini call inside `extractVehicleData`) are modelled as
  total.
* Side effects (extraction calls, outbound messages, media deletions,
  listing persistence, `console.error` lines in catch blocks) are
  collected in an `Effects` record; an outbound message is recorded when
  the send succeeds.
* JavaScript numbers are modelled as exact decimal values inside the
  price parser and as integers for years, prices and indices stored in
  records; `Math.round` is the JS round-half-up rule.
-/

namespace Sambo

/-! ## Data model (`src/types/extraction.ts`) -/

/-- The status union of `SessionData`:
collecting, processing, confirming, completed, cancelled. -/
inductive Status where
  | collecting
  | processing
  | confirming
  | completed
  | cancelled
deriving DecidableEq, Repr

/-- The non-null part of the transmission union: Automatic or Manual. -/
inductive Transmission where
  | automatic
  | manual
deriving DecidableEq, Repr

/-- `SessionImage`: a Cloudinary public id plus its URL. -/
structure SessionImage where
  public_id : String
  url : String
deriving DecidableEq, Repr

/-- `VehicleExtraction` from `src/types/extraction.ts`.  The `condition`
union admits arbitrary strings in practice because `validateExtraction`
casts an unrecognized string through an `as` cast, so it is modelled as
`Option String`. -/
structure VehicleExtraction where
  make : String
  model : String
  year : Int
  price : Option Int
  currency : String
  color : Option String
  transmission : Option Transmission
  condition : Option String
  hero_image_index : Int
  missing_fields : List String
  valid_listing : Bool
deriving DecidableEq, Repr

/-- `SessionData` from `src/types/extraction.ts`. -/
structure SessionData where
  last_updated : Nat
  text_buffer : List String
  images : List SessionImage
  status : Status
  extracted_data : Option VehicleExtraction
  dealer_id : Option String
deriving DecidableEq, Repr

/-- The two Vercel-KV keys for one sender: the session record and the
debounce marker (present = armed). -/
structure Store where
  session : Option SessionData
  timer : Bool
deriving DecidableEq, Repr

/-! ## Session store (`src/services/bufferService.ts`) -/

/-- `getSession`: read the session key. -/
def getSession (s : Store) : Option SessionData := s.session

/-- `saveSession`: stamp `last_updated = Date.now()` and upsert. -/
def saveSession (now : Nat) (sess : SessionData) (s : Store) : Store :=
  { s with session := some { sess with last_updated := now } }

/-- The fresh record built by `createSession` before it is saved. -/
def freshSession (now : Nat) : SessionData :=
  { last_updated := now
    text_buffer := []
    images := []
    status := .collecting
    extracted_data := none
    dealer_id := none }

/-- `createSession`: build a fresh collecting session and save it. -/
def createSession (now : Nat) (s : Store) : SessionData × Store :=
  (freshSession now, saveSession now (freshSession now) s)

/-- `addTextToBuffer`: reuse the session only if it exists and is
collecting, otherwise create a fresh one; push the text; save. -/
def addTextToBuffer (now : Nat) (text : String) (s : Store) : SessionData × Store :=
  let pair :=
    match getSession s with
    | some sess => if sess.status = Status.collecting then (sess, s) else createSession now s
    | none => createSession now s
  let sess := { pair.1 with text_buffer := pair.1.text_buffer ++ [text] }
  (sess, saveSession now sess pair.2)

/-- `addImageToBuffer`: same shape as `addTextToBuffer`, for images. -/
def addImageToBuffer (now : Nat) (image : SessionImage) (s : Store) : SessionData × Store :=
  let pair :=
    match getSession s with
    | some sess => if sess.status = Status.collecting then (sess, s) else createSession now s
    | none => createSession now s
  let sess := { pair.1 with images := pair.1.images ++ [image] }
  (sess, saveSession now sess pair.2)

/-- `updateSessionStatus`: rewrite the status when a session exists. -/
def updateSessionStatus (now : Nat) (st : Status) (s : Store) : Store :=
  match getSession s with
  | some sess => saveSession now { sess with status := st } s
  | none => s

/-- `clearSession`: delete both the session key and the timer key. -/
def clearSession (_s : Store) : Store :=
  { session := none, timer := false }

/-- `setExtractedData`: attach the extraction and force confirming. -/
def setExtractedData (now : Nat) (d : Option VehicleExtraction) (s : Store) : Store :=
  match getSession s with
  | some sess => saveSession now { sess with extracted_data := d, status := .confirming } s
  | none => s

/-- `setDebounceTimer`: arm the marker. -/
def setDebounceTimer (s : Store) : Store := { s with timer := true }

/-- `clearDebounceTimer`: disarm the marker. -/
def clearDebounceTimer (s : Store) : Store := { s with timer := false }

/-! ## Amount parser (`parsePrice` in `src/services/aiService.ts`)

`parsePrice` first strips the case-insensitive character class of the naira
sign, `N`, `G`, comma and JavaScript whitespace everywhere, then trims.  It
then consults JavaScript `parseFloat`, modelled below.  Because every
`n`/`N` has been stripped, the cleaned string can never contain the literal
`Infinity`, so the `Infinity` branch of `parseFloat` is unreachable at its
call sites in this file and the model omits it. -/

/-- The JS whitespace class: ASCII whitespace plus no-break space,
line/paragraph separators, and the BOM. -/
def jsWhitespace (c : Char) : Bool :=
  c == ' ' || c == '\t' || c == '\n' || c == '\r' ||
  c == Char.ofNat 0x0b || c == Char.ofNat 0x0c || c == Char.ofNat 0xa0 ||
  c == Char.ofNat 0x2028 || c == Char.ofNat 0x2029 || c == Char.ofNat 0xfeff

/-- The stripped character class (naira sign, `N`, `G`, comma, whitespace),
with the case-insensitive flag. -/
def strippedChar (c : Char) : Bool :=
  c == '₦' || c == 'N' || c == 'n' || c == 'G' || c == 'g' || c == ',' ||
  jsWhitespace c

/-- JS string trim on a character list. -/
def jsTrim (l : List Char) : List Char :=
  ((l.dropWhile jsWhitespace).reverse.dropWhile jsWhitespace).reverse

/-- Value of a digit string read in base 10. -/
def digitsVal (l : List Char) : Nat :=
  l.foldl (fun a c => a * 10 + (c.toNat - 48)) 0

/-- Ten to a natural power, by explicit recursion (kernel-reducible). -/
def npow10 : Nat → Nat
  | 0 => 1
  | n + 1 => 10 * npow10 n

/-- An exact decimal number `mant * 10 ^ exp`: the value denoted by a JS
decimal literal.  JavaScript itself converts the literal to the nearest
binary double; the model keeps the exact decimal value (the difference is
below the rounding granularity for all inputs considered here). -/
structure DecNum where
  mant : Int
  exp : Int
deriving DecidableEq, Repr

/-- Read an optional leading sign; return the sign and the rest. -/
def readSign (l : List Char) : Int × List Char :=
  match l with
  | c :: r => if c = '+' then (1, r) else if c = '-' then (-1, r) else (1, c :: r)
  | [] => (1, [])

/-- The fraction digits after the integer part: the digits following a leading
dot, empty otherwise. -/
def fracDigits : List Char → List Char
  | c :: r => if c = '.' then r.takeWhile Char.isDigit else []
  | [] => []

/-- What remains after the fraction digits (the input itself when it does
not start with a dot). -/
def fracRest : List Char → List Char
  | c :: r => if c = '.' then r.dropWhile Char.isDigit else c :: r
  | [] => []

/-- The exponent denoted by a trailing `e [sign] digits` part; an `e` not
followed by digits contributes nothing. -/
def expVal (rest : List Char) : Int :=
  match rest with
  | c :: r =>
    if c = 'e' ∨ c = 'E' then
      let er := readSign r
      let eds := er.2.takeWhile Char.isDigit
      if eds = [] then 0 else er.1 * (digitsVal eds : Int)
    else 0
  | [] => 0

/-- JavaScript `parseFloat` on the decimal-literal grammar: skip leading
whitespace, optional sign, then the longest usable front part of the form
`digits [. digits] [e [sign] digits]` (or starting with the dot); NaN
(here `none`) when no digit is consumed.  The `Infinity` literal is
omitted (unreachable at all call sites in this file, see above). -/
def jsParseFloat (l : List Char) : Option DecNum :=
  let t := (readSign (l.dropWhile jsWhitespace)).2
  let intPart := t.takeWhile Char.isDigit
  let fracPart := fracDigits (t.dropWhile Char.isDigit)
  if intPart = [] ∧ fracPart = [] then none
  else
    let sgn := (readSign (l.dropWhile jsWhitespace)).1
    let mant : Int := sgn * (digitsVal intPart * npow10 fracPart.length + digitsVal fracPart : Nat)
    some ⟨mant, expVal (fracRest (t.dropWhile Char.isDigit)) - fracPart.length⟩

/-- JS `Math.round` of an exact decimal `m * 10 ^ e`: round half towards
positive infinity, i.e. the floor of the value plus one half. -/
def jsRound (q : DecNum) : Int :=
  if 0 ≤ q.exp then q.mant * (npow10 q.exp.toNat : Int)
  else
    let d : Int := (npow10 (-q.exp).toNat : Int)
    Int.fdiv (2 * q.mant + d) (2 * d)

/-- The cleaned input of `parsePrice`: strip the character class
everywhere, then trim. -/
def cleanInput (l : List Char) : List Char :=
  jsTrim (l.filter (fun c => ! strippedChar c))

/-- Lowercasing the string and asking whether it ends with the lowercase
letter `c`: the last character, lowercased, is `c`. -/
def lastLowerIs (l : List Char) (c : Char) : Bool :=
  match l.getLast? with
  | some x => x.toLower == c
  | none => false

/-- `parsePrice` from `src/services/aiService.ts`, on a character list.
The `m` branch multiplies by 1 000 000, the `k` branch by 1 000, and each
falls through on NaN; the plain branch rounds the number as is. -/
def parsePriceL (input : List Char) : Option Int :=
  let cleaned := cleanInput input
  let mRes : Option Int :=
    if lastLowerIs cleaned 'm' then
      (jsParseFloat cleaned.dropLast).map (fun v => jsRound { v with exp := v.exp + 6 })
    else none
  match mRes with
  | some r => some r
  | none =>
    let kRes : Option Int :=
      if lastLowerIs cleaned 'k' then
        (jsParseFloat cleaned.dropLast).map (fun v => jsRound { v with exp := v.exp + 3 })
      else none
    match kRes with
    | some r => some r
    | none => (jsParseFloat cleaned).map jsRound

/-- `parsePrice` on a Lean string. -/
def parsePrice (input : String) : Option Int := parsePriceL input.data


/-! ## External collaborators and observable effects

`Env` bundles the behaviour of every external collaborator reached from the
embedded operations: the Gemini response (as the already-JSON-parsed
partial record, or an error covering both an API failure and unparseable
JSON), the WhatsApp send outcomes, the prisma dealer lookup and listing
writes, the Cloudinary move results and the WhatsApp-to-Cloudinary upload.
`Effects` accumulates every externally observable action of a run. -/

/-- One outbound WhatsApp message, by `messageService` entry point.
Plain `sendTextMessage` calls carry their body in `text`. -/
inductive Msg where
  | insufficientImages
  | notACar
  | processingError
  | confirmation (extraction : VehicleExtraction) (imageCount : Nat) (heroImageUrl : Option String)
  | listingCreated (make : String) (model : String) (year : Int)
  | listingCancelled
  | priceEditPrompt
  | welcome
  | text (body : String)
deriving DecidableEq, Repr

/-- Observable side effects of a run. -/
structure Effects where
  /-- Arguments of each `aiService.extractVehicleData` call. -/
  extractions : List (List String × List SessionImage) := []
  /-- Messages delivered to the sender, in order. -/
  sent : List Msg := []
  /-- Number of `deleteSessionImages` (delete-by-tag) requests. -/
  deleteByTag : Nat := 0
  /-- Batches of public ids passed to `deleteImages`. -/
  deleteIds : List (List String) := []
  /-- Ids of listings successfully persisted by `prisma.listing.create`. -/
  listings : List String := []
  /-- Image lists passed to `moveImagesToPermanent`. -/
  moveCalls : List (List SessionImage) := []
  /-- Number of successful `prisma.listingMedia.createMany` calls. -/
  mediaCreates : Nat := 0
  /-- `console.error` lines emitted from catch blocks. -/
  errorLogs : List String := []
deriving DecidableEq, Repr

/-- The raw JSON object coming back from Gemini, before
`validateExtraction` fills defaults: every field may be absent.  `price`
distinguishes an absent field (outer `none`) from an explicit JSON null
(inner `none`), matching the `=== undefined` test in the source. -/
structure PartialExtraction where
  make : Option String := none
  model : Option String := none
  year : Option Int := none
  price : Option (Option Int) := none
  currency : Option String := none
  color : Option String := none
  transmission : Option String := none
  condition : Option String := none
  hero_image_index : Option Int := none
  missing_fields : Option (List String) := none
  valid_listing : Option Bool := none
deriving DecidableEq, Repr

/-- Behaviour of the external collaborators for one run. -/
structure Env where
  /-- Gemini's reply for given text and images: the parsed partial record,
  or an error (API failure or invalid JSON). -/
  gemini : List String → List SessionImage → Except Unit PartialExtraction
  /-- `new Date().getFullYear()`. -/
  curYear : Int
  /-- Whether a WhatsApp send succeeds (a failed send throws). -/
  sendOk : Msg → Bool
  /-- `findDealerByPhone`: the owning dealer id, none, or a prisma error. -/
  findDealer : Except Unit (Option String)
  /-- `prisma.listing.create`: the new listing id, or an error. -/
  createListing : Except Unit String
  /-- Whether `prisma.listingMedia.createMany` succeeds. -/
  createMediaOk : Bool
  /-- Result of `moveImagesToPermanent` (per-image fallback keeps the
  original reference, so the call itself never throws). -/
  moveResult : List SessionImage → List SessionImage
  /-- `uploadFromWhatsAppToCloudinary` for a media id. -/
  upload : String → Except Unit SessionImage

/-- Result of one embedded operation: the store afterwards, the effects,
and whether an exception escaped the operation (`Except.error`). -/
abbrev OpResult := Store × Effects × Except Unit Unit

/-- Record one extraction call. -/
def recordExtraction (texts : List String) (imgs : List SessionImage) (e : Effects) : Effects :=
  { e with extractions := e.extractions ++ [(texts, imgs)] }

/-- Attempt a WhatsApp send: on success the message is recorded; on
failure the send throws (`false`). -/
def sendMessage (env : Env) (m : Msg) (e : Effects) : Effects × Bool :=
  if env.sendOk m then ({ e with sent := e.sent ++ [m] }, true) else (e, false)

/-- `console.error` in a catch block. -/
def logError (tag : String) (e : Effects) : Effects :=
  { e with errorLogs := e.errorLogs ++ [tag] }

/-! ## Image service (`src/services/imageService.ts`) -/

/-- `deleteImages`: early return on an empty batch, otherwise one
Cloudinary bulk deletion request (its own failure is caught and never
re-thrown). -/
def deleteImages (publicIds : List String) (e : Effects) : Effects :=
  if publicIds = [] then e else { e with deleteIds := e.deleteIds ++ [publicIds] }

/-- `deleteSessionImages`: delete-by-tag request (best effort). -/
def deleteSessionImages (e : Effects) : Effects :=
  { e with deleteByTag := e.deleteByTag + 1 }

/-- `deleteExcessImages`: keep the first `maxToKeep` images, delete the
rest, and report the kept list plus the deleted public ids. -/
def deleteExcessImages (images : List SessionImage) (maxToKeep : Nat) (e : Effects) :
    (List SessionImage × List String) × Effects :=
  if images.length ≤ maxToKeep then ((images, []), e)
  else
    let kept := images.take maxToKeep
    let deletedIds := (images.drop maxToKeep).map (fun img => img.public_id)
    ((kept, deletedIds), deleteImages deletedIds e)

/-! ## AI service (`src/services/aiService.ts`) -/

/-- JS falsiness of an optional string (`undefined` or the empty string). -/
def jsFalsyStr (o : Option String) : Bool :=
  match o with
  | none => true
  | some s => s == ""

/-- JS falsiness of an optional number (`undefined` or `0`). -/
def jsFalsyInt (o : Option Int) : Bool :=
  match o with
  | none => true
  | some i => i == 0

/-- JS `a || d` for an optional string `a`. -/
def jsOrStr (o : Option String) (d : String) : String :=
  if jsFalsyStr o then d else o.getD d

/-- JS `a || null` for an optional string `a` (empty string becomes null). -/
def jsOrStrNull (o : Option String) : Option String :=
  if jsFalsyStr o then none else o

/-- JS `a || d` for an optional number `a` (zero falls back to `d`). -/
def jsOrInt (o : Option Int) (d : Int) : Int :=
  match o with
  | some i => if i = 0 then d else i
  | none => d

/-- JS `haystack.includes(needle)` on character lists. -/
def containsChars : List Char → List Char → Bool
  | _, [] => true
  | [], _ :: _ => false
  | h :: t, needle => needle.isPrefixOf (h :: t) || containsChars t needle

/-- `value.toLowerCase().includes(needle)` for a lowercase needle. -/
def lowerIncludes (value : String) (needle : String) : Bool :=
  containsChars (value.data.map Char.toLower) needle.data

/-- `normalizeTransmission`: null/empty to null, otherwise keyword match
on the lowercased value. -/
def normalizeTransmission (value : Option String) : Option Transmission :=
  match value with
  | none => none
  | some v =>
    if v == "" then none
    else if lowerIncludes v "auto" then some Transmission.automatic
    else if lowerIncludes v "manual" then some Transmission.manual
    else none

/-- The condition normalization inside `validateExtraction`: skipped for a
falsy condition, keyword rewrite otherwise (an unrecognized value is kept
as is). -/
def normalizeCondition (o : Option String) : Option String :=
  match o with
  | none => none
  | some c =>
    if c == "" then some c
    else if lowerIncludes c "foreign" || lowerIncludes c "tokunbo" then some "Foreign Used"
    else if lowerIncludes c "nigerian" || lowerIncludes c "local" then some "Nigerian Used"
    else if lowerIncludes c "new" && ! lowerIncludes c "used" then some "New"
    else some c

/-- `validateExtraction`: compute the missing mandatory fields, clamp the
hero image index into `[0, imageCount)` (out of range falls back to 0),
normalize condition and transmission, and fill defaults. -/
def validateExtraction (p : PartialExtraction) (imageCount : Nat) (curYear : Int) :
    VehicleExtraction :=
  let missingFields :=
    (if jsFalsyStr p.make || p.make == some "Unknown" then ["make"] else []) ++
    (if jsFalsyStr p.model || p.model == some "Unknown" then ["model"] else []) ++
    (if jsFalsyInt p.year then ["year"] else []) ++
    (if p.price = none then ["price"] else [])
  let heroIndex0 := p.hero_image_index.getD 0
  let heroIndex := if heroIndex0 < 0 ∨ (imageCount : Int) ≤ heroIndex0 then 0 else heroIndex0
  { make := jsOrStr p.make "Unknown"
    model := jsOrStr p.model "Unknown"
    year := jsOrInt p.year curYear
    price := p.price.getD none
    currency := jsOrStr p.currency "NGN"
    color := jsOrStrNull p.color
    transmission := normalizeTransmission p.transmission
    condition := normalizeCondition p.condition
    hero_image_index := heroIndex
    missing_fields := if missingFields = [] then p.missing_fields.getD [] else missingFields
    valid_listing := p.valid_listing != some false }

/-- The fallback record returned when the Gemini call throws. -/
def fallbackExtraction (curYear : Int) : VehicleExtraction :=
  { make := "Unknown"
    model := "Unknown"
    year := curYear
    price := none
    currency := "NGN"
    color := none
    transmission := none
    condition := none
    hero_image_index := 0
    missing_fields := ["make", "model", "year", "price"]
    valid_listing := false }

/-- `extractVehicleData`: validate Gemini's reply, or return the failed
extraction on any Gemini/JSON error (the function itself never throws). -/
def extractVehicleData (gemini : Except Unit PartialExtraction) (curYear : Int)
    (images : List SessionImage) : VehicleExtraction :=
  match gemini with
  | .ok p => validateExtraction p images.length curYear
  | .error _ => fallbackExtraction curYear

/-! ## Pipeline orchestrator (`src/services/processorService.ts`) -/

/-- `MIN_IMAGES`. -/
def MIN_IMAGES : Nat := 5

/-- `MAX_IMAGES`. -/
def MAX_IMAGES : Nat := 12

/-- JS array indexing with a number index and optional chaining: the
element exists exactly for `0 <= i < arr.length`. -/
def jsIndex (l : List SessionImage) (i : Int) : Option SessionImage :=
  if 0 ≤ i then l.get? i.toNat else none

/-- The catch block of `processSession`: log, delete the session, send the
generic failure message (whose own failure escapes the function). -/
def processCatch (env : Env) (s : Store) (eff : Effects) : OpResult :=
  let eff := logError "Error processing session" eff
  let s := clearSession s
  match sendMessage env Msg.processingError eff with
  | (eff2, true) => (s, eff2, Except.ok ())
  | (eff2, false) => (s, eff2, Except.error ())

/-- The catch block of `handleConfirmation`: log and send the generic
failure message; the session is NOT cleared here (unlike
`processSession`'s catch). -/
def confirmCatch (env : Env) (s : Store) (eff : Effects) : OpResult :=
  let eff := logError "Error confirming listing" eff
  match sendMessage env Msg.processingError eff with
  | (eff2, true) => (s, eff2, Except.ok ())
  | (eff2, false) => (s, eff2, Except.error ())

/-- A trailing send inside `processSession`'s try block: deliver and
finish, or fall into the catch handler. -/
def sendOrCatch (env : Env) (m : Msg) (eff : Effects) (s : Store) : OpResult :=
  match sendMessage env m eff with
  | (eff2, true) => (s, eff2, Except.ok ())
  | (eff2, false) => processCatch env s eff2

/-- A send inside `handleConfirmation`'s try block followed by
`clearSession`: deliver then clear, or fall into its catch handler. -/
def sendThenClear (env : Env) (m : Msg) (eff : Effects) (s : Store) : OpResult :=
  match sendMessage env m eff with
  | (eff2, true) => (clearSession s, eff2, Except.ok ())
  | (eff2, false) => confirmCatch env s eff2

/-- A send with no surrounding try block: deliver, or let the exception
escape the operation. -/
def sendOrThrow (env : Env) (m : Msg) (eff : Effects) (s : Store) : OpResult :=
  match sendMessage env m eff with
  | (eff2, true) => (s, eff2, Except.ok ())
  | (eff2, false) => (s, eff2, Except.error ())

/-- `processSession`: the debounce-expiry pipeline.  Re-reads the session;
a missing or non-collecting session is a no-op.  Otherwise: mark
processing, enforce the minimum image count, trim to `MAX_IMAGES`, run the
extraction, then either tear down (invalid) or attach the result and send
the confirmation prompt. -/
def processSession (env : Env) (now : Nat) (s : Store) : OpResult :=
  match getSession s with
  | none => (s, {}, Except.ok ())
  | some session =>
    if session.status ≠ Status.collecting then (s, {}, Except.ok ())
    else
      let s := updateSessionStatus now Status.processing s
      let eff : Effects := {}
      let imageCount := session.images.length
      if imageCount < MIN_IMAGES then
        let eff := deleteSessionImages eff
        let s := clearSession s
        sendOrCatch env Msg.insufficientImages eff s
      else
        let te :=
          if MAX_IMAGES < imageCount then deleteExcessImages session.images MAX_IMAGES eff
          else ((session.images, []), eff)
        let imagesToProcess := te.1.1
        let eff := te.2
        let extraction :=
          extractVehicleData (env.gemini session.text_buffer imagesToProcess) env.curYear
            imagesToProcess
        let eff := recordExtraction session.text_buffer imagesToProcess eff
        if extraction.valid_listing = false then
          let eff := deleteSessionImages eff
          let s := clearSession s
          sendOrCatch env Msg.notACar eff s
        else
          let s := setExtractedData now (some extraction) s
          let heroImageUrl := (jsIndex imagesToProcess extraction.hero_image_index).map
            (fun img => img.url)
          sendOrCatch env
            (Msg.confirmation extraction imagesToProcess.length heroImageUrl) eff s

/-- The dealer-not-found notification text in `handleConfirmation`. -/
def dealerNotFoundText : String :=
  "❌ Could not find a registered dealer account for this phone number. Please register on the Sambo Dealer Portal first."

/-- `handleConfirmation`: requires a confirming session with extracted
data; resolves the dealer, creates the listing, moves the images, writes
the media records, sends the success message and clears the session.  An
unresolved dealer notifies the user and clears the session. -/
def handleConfirmation (env : Env) (_now : Nat) (s : Store) : OpResult :=
  match getSession s with
  | none => (s, {}, Except.ok ())
  | some session =>
    match session.extracted_data with
    | none => (s, {}, Except.ok ())
    | some data =>
      if session.status ≠ Status.confirming then (s, {}, Except.ok ())
      else
        let eff : Effects := {}
        match env.findDealer with
        | Except.error _ => confirmCatch env s eff
        | Except.ok none => sendThenClear env (Msg.text dealerNotFoundText) eff s
        | Except.ok (some _dealerId) =>
          match env.createListing with
          | Except.error _ => confirmCatch env s eff
          | Except.ok listingId =>
            let eff := { eff with listings := eff.listings ++ [listingId] }
            let eff := { eff with moveCalls := eff.moveCalls ++ [session.images] }
            if env.createMediaOk = false then confirmCatch env s eff
            else
              let eff := { eff with mediaCreates := eff.mediaCreates + 1 }
              sendThenClear env (Msg.listingCreated data.make data.model data.year) eff s

/-- `handleCancellation`: discard media, delete the session, notify (no
surrounding try/catch, so a failed send escapes). -/
def handleCancellation (env : Env) (s : Store) : OpResult :=
  let eff := deleteSessionImages {}
  let s := clearSession s
  sendOrThrow env Msg.listingCancelled eff s

/-- `handleEditPrice`: send the price prompt; the session is untouched. -/
def handleEditPrice (env : Env) (s : Store) : OpResult :=
  sendOrThrow env Msg.priceEditPrompt {} s

/-- The re-prompt text sent by `handlePriceUpdate` on a parse failure. -/
def priceRepromptText : String :=
  "❌ Could not parse price. Please enter a valid number (e.g., \"5000000\" or \"5m\"):"

/-- `handlePriceUpdate`: requires a confirming session with extracted
data; on parse failure re-prompt without touching the store; on success
overwrite the price, re-save via `setExtractedData`, and re-send the
confirmation prompt. -/
def handlePriceUpdate (env : Env) (now : Nat) (s : Store) (priceText : String) : OpResult :=
  match getSession s with
  | none => (s, {}, Except.ok ())
  | some session =>
    match session.extracted_data with
    | none => (s, {}, Except.ok ())
    | some data =>
      if session.status ≠ Status.confirming then (s, {}, Except.ok ())
      else
        match parsePrice priceText with
        | none => sendOrThrow env (Msg.text priceRepromptText) {} s
        | some newPrice =>
          let data := { data with price := some newPrice }
          let s := setExtractedData now (some data) s
          let heroImageUrl := (jsIndex session.images data.hero_image_index).map
            (fun img => img.url)
          sendOrThrow env
            (Msg.confirmation data session.images.length heroImageUrl) {} s

/-! ## Webhook controller (`src/controllers/webhookController.ts`) -/

/-- The price-likeness test for a text received while confirming: starts
with a digit, or contains `m` or `k` after lowercasing. -/
def looksLikePrice (text : String) : Bool :=
  (match text.data with
   | c :: _ => c.isDigit
   | [] => false) ||
  (text.data.map Char.toLower).contains 'm' ||
  (text.data.map Char.toLower).contains 'k'

/-- The lowercased text equals the lowercase word `w`. -/
def lowerEq (text : String) (w : String) : Bool :=
  text.data.map Char.toLower == w.data

/-- `handleTextMessage`: price-correction dispatch while confirming, help
keywords, otherwise buffer the text and re-arm the debounce timer when the
session is collecting or absent. -/
def handleTextMessage (env : Env) (now : Nat) (s : Store) (text : String) : OpResult :=
  let priceBranch :=
    match getSession s with
    | some session =>
      session.status == Status.confirming && session.extracted_data.isSome &&
        looksLikePrice text
    | none => false
  if priceBranch then handlePriceUpdate env now s text
  else if lowerEq text "help" || lowerEq text "start" then
    sendOrThrow env Msg.welcome {} s
  else
    let collectBranch :=
      match getSession s with
      | some session => session.status == Status.collecting
      | none => true
    if collectBranch then
      let ts := addTextToBuffer now text s
      (setDebounceTimer ts.2, {}, Except.ok ())
    else (s, {}, Except.ok ())

/-- `handleImageMessage`: upload to Cloudinary (a failure is caught and
only logged), append the image to the session buffer (creating a fresh
session when the current one is not collecting), and re-arm the timer. -/
def handleImageMessage (env : Env) (now : Nat) (s : Store) (mediaId : String) : OpResult :=
  if mediaId = "" then (s, {}, Except.ok ())
  else
    match env.upload mediaId with
    | Except.error _ => (s, logError "Error handling image" {}, Except.ok ())
    | Except.ok result =>
      let is2 := addImageToBuffer now result s
      (setDebounceTimer is2.2, {}, Except.ok ())

/-! ## Reachable store states and the session-record invariant -/

/-- The data-model invariant of one sender's stored session: a collecting
session has no extracted result; a confirming session has a present,
valid extracted result; and no stored session carries a terminal
completed/cancelled status. -/
def StoreInv (s : Store) : Prop :=
  ∀ d, s.session = some d →
    (d.status = Status.collecting → d.extracted_data = none) ∧
    (d.status = Status.confirming →
      ∃ e, d.extracted_data = some e ∧ e.valid_listing = true) ∧
    d.status ≠ Status.completed ∧ d.status ≠ Status.cancelled

/-- Store states reachable from the empty store by complete runs of the
embedded entry points, under arbitrary collaborator behaviour, inputs and
clocks. -/
inductive Reachable : Store → Prop where
  | init : Reachable { session := none, timer := false }
  | text (env : Env) (now : Nat) (t : String) {s : Store} :
      Reachable s → Reachable (handleTextMessage env now s t).1
  | image (env : Env) (now : Nat) (mediaId : String) {s : Store} :
      Reachable s → Reachable (handleImageMessage env now s mediaId).1
  | confirm (env : Env) (now : Nat) {s : Store} :
      Reachable s → Reachable (handleConfirmation env now s).1
  | cancel (env : Env) {s : Store} :
      Reachable s → Reachable (handleCancellation env s).1
  | editPrice (env : Env) {s : Store} :
      Reachable s → Reachable (handleEditPrice env s).1
  | priceUpdate (env : Env) (now : Nat) (t : String) {s : Store} :
      Reachable s → Reachable (handlePriceUpdate env now s t).1
  | process (env : Env) (now : Nat) {s : Store} :
      Reachable s → Reachable (processSession env now s).1

/-! ## Concrete fixtures used to instantiate the general theorems -/

/-- A collaborator environment where everything succeeds: Gemini returns
an empty partial record (which validates to a valid listing), sends
succeed, the dealer resolves, and prisma calls succeed. -/
def okEnv : Env :=
  { gemini := fun _ _ => Except.ok {}
    curYear := 2026
    sendOk := fun _ => true
    findDealer := Except.ok (some "dealer1")
    createListing := Except.ok "listing1"
    createMediaOk := true
    moveResult := fun l => l
    upload := fun _ => Except.ok ⟨"pu", "uu"⟩ }

/-- `okEnv` with an unresolvable dealer. -/
def noDealerEnv : Env := { okEnv with findDealer := Except.ok none }

/-- `okEnv` where `prisma.listing.create` throws. -/
def failListingEnv : Env := { okEnv with createListing := Except.error () }

/-- `okEnv` where the confirmation prompt send throws. -/
def failConfirmSendEnv : Env :=
  { okEnv with
    sendOk := fun m =>
      match m with
      | Msg.confirmation _ _ _ => false
      | _ => true }

/-- Distinct sample images. -/
def mkImg (n : Nat) : SessionImage := ⟨"p" ++ toString n, "u" ++ toString n⟩

/-- The first `n` sample images. -/
def mkImgs (n : Nat) : List SessionImage := (List.range n).map mkImg

/-- A collecting session holding one text fragment and `n` images. -/
def collectingSession (n : Nat) : SessionData :=
  { last_updated := 0
    text_buffer := ["hello"]
    images := mkImgs n
    status := Status.collecting
    extracted_data := none
    dealer_id := none }

/-- A store holding `collectingSession n` with the timer lapsed. -/
def collectingStore (n : Nat) : Store :=
  { session := some (collectingSession n), timer := false }

/-- The extraction of an empty Gemini record over 5 images: valid, hero 0. -/
def sampleExtraction : VehicleExtraction := validateExtraction {} 5 2026

/-- A confirming session with an attached valid extraction. -/
def confirmingSession : SessionData :=
  { last_updated := 0
    text_buffer := ["hello"]
    images := mkImgs 5
    status := Status.confirming
    extracted_data := some sampleExtraction
    dealer_id := none }

/-- A store holding `confirmingSession`. -/
def confirmingStore : Store := { session := some confirmingSession, timer := false }

/-- A session currently in the processing (Extracting) state. -/
def processingSession : SessionData := { collectingSession 5 with status := Status.processing }

/-- A store whose session is mid-extraction. -/
def processingStore : Store := { session := some processingSession, timer := false }

/-- The empty store. -/
def emptyStore : Store := { session := none, timer := false }

/-- One inbound image under `okEnv` at time `k`. -/
def reachStep (k : Nat) (s : Store) : Store := (handleImageMessage okEnv k s "m").1

/-- Five inbound images from the empty store. -/
def reach5 : Store :=
  reachStep 5 (reachStep 4 (reachStep 3 (reachStep 2 (reachStep 1 emptyStore))))

/-! ## Lemmas about the amount parser -/

theorem takeWhile_append_ne_nil {p : Char → Bool} {xs : List Char} (ys : List Char)
    (h : xs.takeWhile p ≠ []) : (xs ++ ys).takeWhile p ≠ [] := by
  cases xs with
  | nil => simp at h
  | cons a t =>
    by_cases hp : p a = true
    · simp [List.takeWhile_cons, hp]
    · simp [List.takeWhile_cons, hp] at h

theorem dropWhile_append_of_ne_nil {p : Char → Bool} {xs : List Char} (ys : List Char)
    (h : xs.dropWhile p ≠ []) : (xs ++ ys).dropWhile p = xs.dropWhile p ++ ys := by
  induction xs with
  | nil => simp at h
  | cons a t ih =>
    by_cases hp : p a = true
    · simp only [List.cons_append, List.dropWhile_cons, hp, if_true] at h ⊢
      exact ih h
    · simp [List.dropWhile_cons, hp]

theorem dropWhile_eq_self_of_takeWhile_eq_nil {p : Char → Bool} {l : List Char}
    (h : l.takeWhile p = []) : l.dropWhile p = l := by
  cases l with
  | nil => rfl
  | cons a t =>
    by_cases hp : p a = true
    · simp [List.takeWhile_cons, hp] at h
    · simp [List.dropWhile_cons, hp]

theorem readSign_append (ys : List Char) {l : List Char} (h : l ≠ []) :
    readSign (l ++ ys) = ((readSign l).1, (readSign l).2 ++ ys) := by
  cases l with
  | nil => exact absurd rfl h
  | cons c t =>
    by_cases h1 : c = '+'
    · simp [readSign, h1]
    · by_cases h2 : c = '-'
      · simp [readSign, h1, h2]
      · simp [readSign, h1, h2]

theorem jsParseFloat_eq_none_iff (l : List Char) :
    jsParseFloat l = none ↔
      (readSign (l.dropWhile jsWhitespace)).2.takeWhile Char.isDigit = [] ∧
      fracDigits ((readSign (l.dropWhile jsWhitespace)).2.dropWhile Char.isDigit) = [] := by
  by_cases h :
      (readSign (l.dropWhile jsWhitespace)).2.takeWhile Char.isDigit = [] ∧
      fracDigits ((readSign (l.dropWhile jsWhitespace)).2.dropWhile Char.isDigit) = [] <;>
    simp [jsParseFloat, h]

theorem fracDigits_ne_nil {m : List Char} (hf : fracDigits m ≠ []) :
    ∃ r, m = '.' :: r ∧ r.takeWhile Char.isDigit ≠ [] := by
  cases m with
  | nil => simp [fracDigits] at hf
  | cons c r =>
    by_cases hdot : c = '.'
    · subst hdot
      refine ⟨r, rfl, ?_⟩
      simpa [fracDigits] using hf
    · simp [fracDigits, hdot] at hf

theorem jsParseFloat_append_ne_none {xs : List Char} (ys : List Char)
    (h : jsParseFloat xs ≠ none) : jsParseFloat (xs ++ ys) ≠ none := by
  have h' : ¬ ((readSign (xs.dropWhile jsWhitespace)).2.takeWhile Char.isDigit = [] ∧
      fracDigits ((readSign (xs.dropWhile jsWhitespace)).2.dropWhile Char.isDigit) = []) :=
    fun hx => h ((jsParseFloat_eq_none_iff xs).2 hx)
  intro hc0
  have hc := (jsParseFloat_eq_none_iff (xs ++ ys)).1 hc0
  have hl1 : xs.dropWhile jsWhitespace ≠ [] := by
    intro hnil
    exact h' (by rw [hnil]; exact ⟨rfl, rfl⟩)
  rw [dropWhile_append_of_ne_nil ys hl1, readSign_append ys hl1] at hc
  dsimp only at hc
  apply h'
  have hA : (readSign (xs.dropWhile jsWhitespace)).2.takeWhile Char.isDigit = [] := by
    by_contra hi
    exact (takeWhile_append_ne_nil ys hi) hc.1
  refine ⟨hA, ?_⟩
  by_contra hf
  rw [dropWhile_eq_self_of_takeWhile_eq_nil hA] at hf
  obtain ⟨r, hr, hrd⟩ := fracDigits_ne_nil hf
  have hc2 := hc.2
  rw [hr, List.cons_append] at hc2
  have hnd : Char.isDigit '.' = false := by decide
  rw [dropWhile_eq_self_of_takeWhile_eq_nil
    (show ('.' :: (r ++ ys)).takeWhile Char.isDigit = [] by
      simp [List.takeWhile_cons, hnd])] at hc2
  rw [show fracDigits ('.' :: (r ++ ys)) = (r ++ ys).takeWhile Char.isDigit by
    simp [fracDigits]] at hc2
  exact (takeWhile_append_ne_nil ys hrd) hc2

theorem lastLowerIs_some {l : List Char} {a : Char} (h : lastLowerIs l a = true) :
    ∃ x, l.getLast? = some x ∧ x.toLower = a := by
  revert h
  unfold lastLowerIs
  rcases hg : l.getLast? with _ | x
  · intro h
    simp at h
  · intro h
    simp only [beq_iff_eq] at h
    exact ⟨x, rfl, h⟩

theorem lastLowerIs_ne (l : List Char) {a b : Char} (hab : a ≠ b)
    (h : lastLowerIs l a = true) : lastLowerIs l b = false := by
  obtain ⟨x, hg, hx⟩ := lastLowerIs_some h
  unfold lastLowerIs
  rw [hg]
  simp [hx, hab]

theorem lastLowerIs_dropLast_append {l : List Char} {a : Char}
    (h : lastLowerIs l a = true) : ∃ x, l.dropLast ++ [x] = l := by
  obtain ⟨x, hg, _⟩ := lastLowerIs_some h
  exact ⟨x, List.dropLast_append_getLast? x (by simp [Option.mem_def, hg])⟩

theorem parsePriceL_eq_none_iff (input : List Char) :
    parsePriceL input = none ↔ jsParseFloat (cleanInput input) = none := by
  unfold parsePriceL
  by_cases hm : lastLowerIs (cleanInput input) 'm' = true
  · rcases hsub : jsParseFloat (cleanInput input).dropLast with _ | v
    · have hk := lastLowerIs_ne (cleanInput input) (by decide : 'm' ≠ 'k') hm
      simp [hm, hk, hsub, Option.map_eq_none]
    · obtain ⟨x, hx⟩ := lastLowerIs_dropLast_append hm
      have hne : jsParseFloat (cleanInput input) ≠ none := by
        rw [← hx]
        exact jsParseFloat_append_ne_none [x] (by rw [hsub]; exact fun hcn => by cases hcn)
      simp [hm, hsub, hne]
  · by_cases hk : lastLowerIs (cleanInput input) 'k' = true
    · rcases hsub : jsParseFloat (cleanInput input).dropLast with _ | v
      · simp [hm, hk, hsub, Option.map_eq_none]
      · obtain ⟨x, hx⟩ := lastLowerIs_dropLast_append hk
        have hne : jsParseFloat (cleanInput input) ≠ none := by
          rw [← hx]
          exact jsParseFloat_append_ne_none [x] (by rw [hsub]; exact fun hcn => by cases hcn)
        simp [hm, hk, hsub, hne]
    · simp [hm, hk, Option.map_eq_none]

/-! ## Claim theorems for the amount parser -/

/-- C7: the amount parser satisfies the five round-trip examples of the
specification: plain digits, the `m` suffix, a fractional `m` amount, a
currency-and-separator form, and a non-numeric rejection. -/
theorem parsePrice_roundtrip_examples :
    parsePrice "5000000" = some 5000000 ∧
    parsePrice "5m" = some 5000000 ∧
    parsePrice "2.5m" = some 2500000 ∧
    parsePrice "₦ 1,200,000" = some 1200000 ∧
    parsePrice "abc" = none := by
  refine ⟨by decide, by decide, by decide, by decide, by decide⟩

/-- C8 counterexample: the claim asserts `parsePrice` returns null for any
input whose cleaned remainder is not a numeric literal, such as a digit
run followed by letters; but JS `parseFloat` accepts the longest numeric
front part, so the digit-then-letters input evaluates to a number. -/
theorem parsePrice_digit_then_letters_accepted :
    parsePrice "123abc" = some 123 ∧ ¬ parsePrice "123abc" = none := by
  exact ⟨by decide, by decide⟩

/-- C8 amended: after stripping currency symbols, separators and
whitespace, `parsePrice` follows JS `parseFloat` longest-numeric-front
semantics (through the `m`/`k` branches as well), and in particular it
returns null exactly when the cleaned remainder has no leading numeric
literal at all; trailing non-numeric characters after a numeric front are
ignored rather than rejected. -/
theorem parsePrice_null_iff_unparseable (s : String) :
    parsePrice s = none ↔ jsParseFloat (cleanInput s.data) = none :=
  parsePriceL_eq_none_iff s.data


/-! ## Lemmas about the pipeline orchestrator -/

instance : DecidableEq (Except Unit Unit) := fun a b =>
  match a, b with
  | Except.ok (), Except.ok () => isTrue rfl
  | Except.ok (), Except.error () => isFalse (fun h => Except.noConfusion h)
  | Except.error (), Except.ok () => isFalse (fun h => Except.noConfusion h)
  | Except.error (), Except.error () => isTrue rfl

theorem processCatch_store (env : Env) (s : Store) (eff : Effects) :
    (processCatch env s eff).1 = { session := none, timer := false } := by
  unfold processCatch
  by_cases hok : env.sendOk Msg.processingError = true <;>
    simp [sendMessage, logError, clearSession, hok]

theorem processCatch_spec_ok {env : Env} (hok : env.sendOk Msg.processingError = true)
    (s : Store) (eff : Effects) :
    processCatch env s eff =
      ({ session := none, timer := false },
       { eff with sent := eff.sent ++ [Msg.processingError],
                  errorLogs := eff.errorLogs ++ ["Error processing session"] },
       Except.ok ()) := by
  simp [processCatch, sendMessage, logError, clearSession, hok]

theorem processCatch_effects (env : Env) (s : Store) (eff : Effects) :
    (processCatch env s eff).2.1.extractions = eff.extractions ∧
    (processCatch env s eff).2.1.deleteIds = eff.deleteIds := by
  unfold processCatch
  by_cases hok : env.sendOk Msg.processingError = true <;>
    simp [sendMessage, logError, hok]

theorem confirmCatch_store (env : Env) (s : Store) (eff : Effects) :
    (confirmCatch env s eff).1 = s := by
  unfold confirmCatch
  by_cases hok : env.sendOk Msg.processingError = true <;>
    simp [sendMessage, logError, hok]

theorem confirmCatch_spec_ok {env : Env} (hok : env.sendOk Msg.processingError = true)
    (s : Store) (eff : Effects) :
    confirmCatch env s eff =
      (s, { eff with sent := eff.sent ++ [Msg.processingError],
                     errorLogs := eff.errorLogs ++ ["Error confirming listing"] },
       Except.ok ()) := by
  simp [confirmCatch, sendMessage, logError, hok]

theorem sendOrCatch_ok {env : Env} {m : Msg} (hok : env.sendOk m = true)
    (eff : Effects) (s : Store) :
    sendOrCatch env m eff s = (s, { eff with sent := eff.sent ++ [m] }, Except.ok ()) := by
  simp [sendOrCatch, sendMessage, hok]

theorem sendOrCatch_fail {env : Env} {m : Msg} (hok : env.sendOk m = false)
    (eff : Effects) (s : Store) :
    sendOrCatch env m eff s = processCatch env s eff := by
  simp [sendOrCatch, sendMessage, hok]

theorem sendOrCatch_store (env : Env) (m : Msg) (eff : Effects) (s : Store) :
    (sendOrCatch env m eff s).1 = s ∨
    (sendOrCatch env m eff s).1 = { session := none, timer := false } := by
  by_cases hok : env.sendOk m = true
  · left
    rw [sendOrCatch_ok hok]
  · right
    rw [sendOrCatch_fail (by simpa using hok)]
    exact processCatch_store env s eff

theorem sendOrCatch_effects (env : Env) (m : Msg) (eff : Effects) (s : Store) :
    (sendOrCatch env m eff s).2.1.extractions = eff.extractions ∧
    (sendOrCatch env m eff s).2.1.deleteIds = eff.deleteIds := by
  by_cases hok : env.sendOk m = true
  · rw [sendOrCatch_ok hok]
    exact ⟨rfl, rfl⟩
  · rw [sendOrCatch_fail (by simpa using hok)]
    exact processCatch_effects env s eff

theorem sendThenClear_store (env : Env) (m : Msg) (eff : Effects) (s : Store) :
    (sendThenClear env m eff s).1 = { session := none, timer := false } ∨
    (sendThenClear env m eff s).1 = s := by
  unfold sendThenClear
  by_cases hok : env.sendOk m = true
  · left
    simp [sendMessage, hok, clearSession]
  · right
    simp only [sendMessage, hok, Bool.false_eq_true, if_false]
    exact confirmCatch_store env s eff

theorem sendOrThrow_store (env : Env) (m : Msg) (eff : Effects) (s : Store) :
    (sendOrThrow env m eff s).1 = s := by
  unfold sendOrThrow
  by_cases hok : env.sendOk m = true <;> simp [sendMessage, hok]

theorem sendOrThrow_ok {env : Env} {m : Msg} (hok : env.sendOk m = true)
    (eff : Effects) (s : Store) :
    sendOrThrow env m eff s = (s, { eff with sent := eff.sent ++ [m] }, Except.ok ()) := by
  simp [sendOrThrow, sendMessage, hok]

theorem sendOrCatch_extractions (env : Env) (m : Msg) (eff : Effects) (s : Store) :
    (sendOrCatch env m eff s).2.1.extractions = eff.extractions := by
  by_cases hok : env.sendOk m = true
  · rw [sendOrCatch_ok hok]
  · rw [sendOrCatch_fail (by simpa using hok)]
    exact (processCatch_effects env s eff).1

theorem sendOrCatch_deleteIds (env : Env) (m : Msg) (eff : Effects) (s : Store) :
    (sendOrCatch env m eff s).2.1.deleteIds = eff.deleteIds := by
  by_cases hok : env.sendOk m = true
  · rw [sendOrCatch_ok hok]
  · rw [sendOrCatch_fail (by simpa using hok)]
    exact (processCatch_effects env s eff).2

theorem processSession_main_effects (env : Env) (now : Nat) {s : Store} {sess : SessionData}
    (hs : s.session = some sess) (hst : sess.status = Status.collecting)
    (hge : ¬ sess.images.length < MIN_IMAGES) :
    (processSession env now s).2.1.extractions =
      [(sess.text_buffer,
        if MAX_IMAGES < sess.images.length then sess.images.take MAX_IMAGES
        else sess.images)] ∧
    (processSession env now s).2.1.deleteIds =
      (if MAX_IMAGES < sess.images.length then
        [(sess.images.drop MAX_IMAGES).map (fun img => img.public_id)]
      else []) := by
  unfold processSession
  by_cases htrim : MAX_IMAGES < sess.images.length
  · have hnle : ¬ sess.images.length ≤ MAX_IMAGES := Nat.not_le.mpr htrim
    have hdne : (sess.images.drop MAX_IMAGES).map (fun img => img.public_id) ≠ [] := by
      intro hnil
      apply_fun List.length at hnil
      simp only [List.length_map, List.length_drop, List.length_nil] at hnil
      omega
    constructor <;>
      simp [getSession, hs, hst, hge, htrim, hnle, hdne, deleteExcessImages, deleteImages,
        recordExtraction, deleteSessionImages, updateSessionStatus, saveSession, clearSession,
        setExtractedData] <;>
      split <;> simp [sendOrCatch_extractions, sendOrCatch_deleteIds]
  · constructor <;>
      simp [getSession, hs, hst, hge, htrim, recordExtraction, deleteSessionImages,
        updateSessionStatus, saveSession, clearSession, setExtractedData] <;>
      split <;> simp [sendOrCatch_extractions, sendOrCatch_deleteIds]

theorem sendOrCatch_session_none {env : Env} {m : Msg} {eff : Effects} {s : Store}
    (h : s.session = none) : (sendOrCatch env m eff s).1.session = none := by
  rcases sendOrCatch_store env m eff s with h2 | h2
  · rw [h2]
    exact h
  · rw [h2]

theorem processSession_collecting_cases (env : Env) (now : Nat) (s : Store) {sess : SessionData}
    (hs : s.session = some sess) (hst : sess.status = Status.collecting) :
    (processSession env now s).1.session = none ∨
    ∃ e, e.valid_listing = true ∧
      (processSession env now s).1.session =
        some { sess with status := Status.confirming, extracted_data := some e,
                         last_updated := now } := by
  unfold processSession
  by_cases hlt : sess.images.length < MIN_IMAGES
  · left
    simp only [getSession, hs, hst, ne_eq, not_true_eq_false, Bool.false_eq_true, if_false,
      ite_false, hlt, if_true, ite_true]
    exact sendOrCatch_session_none rfl
  · by_cases htrim : MAX_IMAGES < sess.images.length
    · have hnle : ¬ sess.images.length ≤ MAX_IMAGES := Nat.not_le.mpr htrim
      simp [getSession, hs, hst, hlt, htrim, hnle, deleteExcessImages, deleteImages,
        recordExtraction, deleteSessionImages, updateSessionStatus, saveSession, clearSession,
        setExtractedData]
      split
      · left
        exact sendOrCatch_session_none rfl
      · next hv =>
        rcases sendOrCatch_store env _ _ _ with h | h
        · right
          exact ⟨_, by simpa using hv, by rw [h]⟩
        · left
          rw [h]
    · simp [getSession, hs, hst, hlt, htrim, recordExtraction, deleteSessionImages,
        updateSessionStatus, saveSession, clearSession, setExtractedData]
      split
      · left
        exact sendOrCatch_session_none rfl
      · next hv =>
        rcases sendOrCatch_store env _ _ _ with h | h
        · right
          exact ⟨_, by simpa using hv, by rw [h]⟩
        · left
          rw [h]

theorem processSession_noop (env : Env) (now : Nat) (s : Store)
    (h : ∀ sess, s.session = some sess → sess.status ≠ Status.collecting) :
    processSession env now s = (s, {}, Except.ok ()) := by
  unfold processSession
  cases hs : getSession s with
  | none => rfl
  | some sess =>
    have hne := h sess hs
    simp [hne]

theorem processSession_insufficient {env : Env} {now : Nat} {s : Store} {sess : SessionData}
    (hs : s.session = some sess) (hst : sess.status = Status.collecting)
    (hlt : sess.images.length < MIN_IMAGES)
    (hok : env.sendOk Msg.insufficientImages = true) :
    processSession env now s =
      ({ session := none, timer := false },
       { deleteByTag := 1, sent := [Msg.insufficientImages] }, Except.ok ()) := by
  unfold processSession
  simp [getSession, hs, hst, hlt, updateSessionStatus, saveSession, clearSession,
    deleteSessionImages, sendOrCatch_ok hok]



theorem processSession_one_outcome {env : Env} {now : Nat} {s : Store} {sess : SessionData}
    (hs : s.session = some sess) (hst : sess.status = Status.collecting)
    (hge : ¬ sess.images.length < MIN_IMAGES) (hsend : ∀ m, env.sendOk m = true) :
    (processSession env now s).2.1.extractions.length = 1 ∧
    (processSession env now s).2.1.sent.length = 1 := by
  constructor
  · rw [(processSession_main_effects env now hs hst hge).1]
    rfl
  · have hso : ∀ m eff st, sendOrCatch env m eff st =
        (st, { eff with sent := eff.sent ++ [m] }, Except.ok ()) :=
      fun m eff st => sendOrCatch_ok (hsend m) eff st
    unfold processSession
    by_cases htrim : MAX_IMAGES < sess.images.length
    · have hnle : ¬ sess.images.length ≤ MAX_IMAGES := Nat.not_le.mpr htrim
      simp [getSession, hs, hst, hge, htrim, hnle, deleteExcessImages, deleteImages,
        recordExtraction, deleteSessionImages, updateSessionStatus, saveSession, clearSession,
        setExtractedData, hso] <;>
        split <;> simp
    · simp [getSession, hs, hst, hge, htrim, recordExtraction, deleteSessionImages,
        updateSessionStatus, saveSession, clearSession, setExtractedData, hso] <;>
        split <;> simp

/-- C1: running `processSession` (the `onExpiry` pipeline) twice in a row
on the same collecting session — the sequentialized scanner double-trigger
race — produces exactly one extraction call and one outbound message in
total: the first run makes one extraction call and sends one message, and
the second run re-reads the store, finds the session gone or no longer
collecting, and is a complete no-op: unchanged store, no store write, no
extraction call, no message, no exception. -/
theorem processSession_double_trigger (env1 env2 : Env) (now1 now2 : Nat) (s : Store)
    (sess : SessionData) (hs : s.session = some sess)
    (hst : sess.status = Status.collecting)
    (hmin : MIN_IMAGES ≤ sess.images.length) (hsend : ∀ m, env1.sendOk m = true) :
    ((processSession env1 now1 s).2.1.extractions.length = 1 ∧
      (processSession env1 now1 s).2.1.sent.length = 1) ∧
    processSession env2 now2 (processSession env1 now1 s).1 =
      ((processSession env1 now1 s).1, {}, Except.ok ()) := by
  refine ⟨processSession_one_outcome hs hst (Nat.not_lt.mpr hmin) hsend, ?_⟩
  rcases processSession_collecting_cases env1 now1 s hs hst with hnone | ⟨e, _, hconf⟩
  · exact processSession_noop env2 now2 _ (fun d hd => by rw [hnone] at hd; cases hd)
  · refine processSession_noop env2 now2 _ (fun d hd => ?_)
    rw [hconf] at hd
    cases hd
    intro hcol
    simp at hcol

/-- C1 witness: a concrete 5-image collecting session run through the
pipeline twice under an all-succeeding environment. -/
theorem processSession_double_trigger_witness :
    ((collectingStore 5).session = some (collectingSession 5) ∧
      (collectingSession 5).status = Status.collecting ∧
      MIN_IMAGES ≤ (collectingSession 5).images.length) ∧
    ((processSession okEnv 7 (collectingStore 5)).2.1.extractions.length = 1 ∧
      (processSession okEnv 7 (collectingStore 5)).2.1.sent.length = 1) ∧
    processSession okEnv 8 (processSession okEnv 7 (collectingStore 5)).1 =
      ((processSession okEnv 7 (collectingStore 5)).1, {}, Except.ok ()) :=
  ⟨⟨rfl, rfl, by decide⟩,
    processSession_double_trigger okEnv okEnv 7 8 (collectingStore 5) (collectingSession 5)
      rfl rfl (by decide) (fun _ => rfl)⟩

/-- C2: media-count boundaries of the expiry pipeline.  Below the minimum:
media deleted by tag, session deleted, one insufficient-input message,
zero extraction calls.  Between the bounds: exactly one extraction call
with the full image list, no bulk deletion.  Above the maximum: exactly
one extraction call with the earliest-submitted `MAX_IMAGES`-image prefix
in order, and the excess images' ids deleted and reported. -/
theorem processSession_media_count_boundaries (env : Env) (now : Nat) (s : Store)
    (sess : SessionData) (hs : s.session = some sess)
    (hst : sess.status = Status.collecting) (hsend : ∀ m, env.sendOk m = true) :
    (sess.images.length < MIN_IMAGES →
      processSession env now s =
        ({ session := none, timer := false },
         { deleteByTag := 1, sent := [Msg.insufficientImages] }, Except.ok ())) ∧
    (MIN_IMAGES ≤ sess.images.length → sess.images.length ≤ MAX_IMAGES →
      (processSession env now s).2.1.extractions = [(sess.text_buffer, sess.images)] ∧
      (processSession env now s).2.1.deleteIds = []) ∧
    (MAX_IMAGES < sess.images.length →
      (processSession env now s).2.1.extractions =
        [(sess.text_buffer, sess.images.take MAX_IMAGES)] ∧
      (processSession env now s).2.1.deleteIds =
        [(sess.images.drop MAX_IMAGES).map (fun img => img.public_id)]) := by
  refine ⟨fun hlt => processSession_insufficient hs hst hlt (hsend _),
    fun hge hle => ?_, fun hgt => ?_⟩
  · have h := processSession_main_effects env now hs hst (Nat.not_lt.mpr hge)
    have hnt : ¬ MAX_IMAGES < sess.images.length := Nat.not_lt.mpr hle
    simpa [hnt] using h
  · have hge : ¬ sess.images.length < MIN_IMAGES := by
      simp only [MIN_IMAGES]
      simp only [MAX_IMAGES] at hgt
      omega
    have h := processSession_main_effects env now hs hst hge
    simpa [hgt] using h

/-- C2 witness: the boundaries at 4, 5 and 15 images under an
all-succeeding environment. -/
theorem processSession_media_count_boundaries_witness :
    processSession okEnv 7 (collectingStore 4) =
      ({ session := none, timer := false },
       { deleteByTag := 1, sent := [Msg.insufficientImages] }, Except.ok ()) ∧
    ((processSession okEnv 7 (collectingStore 5)).2.1.extractions =
        [(["hello"], mkImgs 5)] ∧
      (processSession okEnv 7 (collectingStore 5)).2.1.deleteIds = []) ∧
    ((processSession okEnv 7 (collectingStore 15)).2.1.extractions =
        [(["hello"], (mkImgs 15).take MAX_IMAGES)] ∧
      (processSession okEnv 7 (collectingStore 15)).2.1.deleteIds =
        [((mkImgs 15).drop MAX_IMAGES).map (fun img => img.public_id)]) :=
  ⟨(processSession_media_count_boundaries okEnv 7 (collectingStore 4) (collectingSession 4)
      rfl rfl (fun _ => rfl)).1 (by decide),
   (processSession_media_count_boundaries okEnv 7 (collectingStore 5) (collectingSession 5)
      rfl rfl (fun _ => rfl)).2.1 (by decide) (by decide),
   (processSession_media_count_boundaries okEnv 7 (collectingStore 15) (collectingSession 15)
      rfl rfl (fun _ => rfl)).2.2 (by decide)⟩


/-- C4 counterexample: an inbound image for a sender whose session is in
the processing (Extracting) state does mutate the store: the buffer append
sees a non-collecting session and replaces it, contradicting the claim
that such events never mutate or replace the session record. -/
theorem inbound_image_mutates_extracting_session :
    (handleImageMessage okEnv 7 processingStore "m1").1.session ≠ processingStore.session ∧
    processingStore.session.isSome = true := by
  exact ⟨by decide, by decide⟩

/-- C4 amended: while a session is mid-extraction (processing state), an
inbound text event never touches the store; an inbound media event,
however, does not leave the session alone — the buffer append sees a
non-collecting session and replaces it with a fresh collecting session
containing only the new image, re-arming the debounce timer. -/
theorem inbound_while_extracting (env : Env) (now : Nat) (s : Store)
    (sess : SessionData) (t mediaId : String) (img : SessionImage)
    (hs : s.session = some sess) (hst : sess.status = Status.processing)
    (hup : env.upload mediaId = Except.ok img) (hmid : mediaId ≠ "") :
    (handleTextMessage env now s t).1 = s ∧
    (handleImageMessage env now s mediaId).1 =
      { session := some { freshSession now with images := [img], last_updated := now },
        timer := true } := by
  constructor
  · unfold handleTextMessage
    simp only [getSession, hs, hst]
    simp only [show (Status.processing == Status.confirming) = false from rfl,
      show (Status.processing == Status.collecting) = false from rfl,
      Bool.false_and, Bool.and_false, Bool.false_eq_true, if_false, ite_false]
    split
    · exact sendOrThrow_store env Msg.welcome {} s
    · rfl
  · unfold handleImageMessage
    rw [if_neg hmid, hup]
    simp [addImageToBuffer, getSession, hs, hst, createSession, freshSession, saveSession,
      setDebounceTimer]

/-- C4 witness: the amended behaviour at a concrete processing-state
store, an arbitrary text, and a successfully uploaded image. -/
theorem inbound_while_extracting_witness :
    (handleTextMessage okEnv 7 processingStore "hi").1 = processingStore ∧
    (handleImageMessage okEnv 7 processingStore "m1").1 =
      { session := some { freshSession 7 with images := [⟨"pu", "uu"⟩], last_updated := 7 },
        timer := true } :=
  inbound_while_extracting okEnv 7 processingStore processingSession "hi" "m1" ⟨"pu", "uu"⟩
    rfl rfl rfl (by decide)

/-- C5 counterexample: when the dealer lookup resolves to none, the code
notifies the user and then CLEARS the session, contradicting the claim
that the session remains in the store. -/
theorem unresolved_dealer_session_cleared :
    (handleConfirmation noDealerEnv 7 confirmingStore).1.session = none ∧
    confirmingStore.session.isSome = true := by
  exact ⟨by decide, by decide⟩

/-- C5 amended: on a confirming session with an extracted result, when the
dealer lookup returns none and the notification send succeeds, the user
receives exactly the unresolved-identity text, no listing is persisted, no
media are relocated, no media records are written — and the session is
deleted from the store (not retained). -/
theorem handleConfirmation_unresolved_dealer (env : Env) (now : Nat) (s : Store)
    (sess : SessionData) (e : VehicleExtraction)
    (hs : s.session = some sess) (hst : sess.status = Status.confirming)
    (he : sess.extracted_data = some e)
    (hd : env.findDealer = Except.ok none)
    (hok : env.sendOk (Msg.text dealerNotFoundText) = true) :
    handleConfirmation env now s =
      ({ session := none, timer := false },
       { sent := [Msg.text dealerNotFoundText] }, Except.ok ()) := by
  unfold handleConfirmation
  simp [getSession, hs, he, hst, hd, sendThenClear, sendMessage, hok, clearSession]

/-- C5 witness: the amended behaviour at a concrete confirming store under
an environment whose dealer lookup resolves to none. -/
theorem handleConfirmation_unresolved_dealer_witness :
    handleConfirmation noDealerEnv 7 confirmingStore =
      ({ session := none, timer := false },
       { sent := [Msg.text dealerNotFoundText] }, Except.ok ()) :=
  handleConfirmation_unresolved_dealer noDealerEnv 7 confirmingStore confirmingSession
    sampleExtraction rfl rfl rfl rfl rfl

/-- C9: `handlePriceUpdate` on a confirming session with an extracted
result: on parse failure it sends exactly the re-prompt text and leaves
the store record entirely unchanged; on parse success it overwrites only
the extracted price with the parsed amount, keeps the state confirming,
and re-sends the confirmation prompt. -/
theorem handlePriceUpdate_behavior (env : Env) (now : Nat) (s : Store)
    (sess : SessionData) (e : VehicleExtraction) (raw : String)
    (hs : s.session = some sess) (hst : sess.status = Status.confirming)
    (he : sess.extracted_data = some e) (hsend : ∀ m, env.sendOk m = true) :
    (parsePrice raw = none →
      handlePriceUpdate env now s raw =
        (s, { sent := [Msg.text priceRepromptText] }, Except.ok ())) ∧
    ((parsePrice raw).isSome = true →
      (handlePriceUpdate env now s raw).1.session =
        some { sess with extracted_data := some { e with price := parsePrice raw },
                         status := Status.confirming, last_updated := now } ∧
      (handlePriceUpdate env now s raw).2.1.sent =
        [Msg.confirmation { e with price := parsePrice raw } sess.images.length
          ((jsIndex sess.images e.hero_image_index).map (fun img => img.url))]) := by
  constructor
  · intro hpr
    unfold handlePriceUpdate
    simp [getSession, hs, he, hst, hpr, sendOrThrow_ok (hsend (Msg.text priceRepromptText))]
  · intro hpr
    rcases hsome : parsePrice raw with _ | p
    · rw [hsome] at hpr
      simp at hpr
    · unfold handlePriceUpdate
      rw [hsome]
      simp [getSession, hs, he, hst, setExtractedData, saveSession,
        sendOrThrow_ok (hsend _)]

/-- C9 witness: a failed parse leaves the concrete confirming store
unchanged with the re-prompt; the input 6m sets the price to 6000000 and
re-sends the confirmation prompt in the confirming state. -/
theorem handlePriceUpdate_behavior_witness :
    handlePriceUpdate okEnv 7 confirmingStore "unclear" =
      (confirmingStore, { sent := [Msg.text priceRepromptText] }, Except.ok ()) ∧
    ((handlePriceUpdate okEnv 7 confirmingStore "6m").1.session =
        some { confirmingSession with
          extracted_data := some { sampleExtraction with price := some 6000000 },
          status := Status.confirming, last_updated := 7 } ∧
      (handlePriceUpdate okEnv 7 confirmingStore "6m").2.1.sent =
        [Msg.confirmation { sampleExtraction with price := some 6000000 }
          confirmingSession.images.length
          ((jsIndex confirmingSession.images sampleExtraction.hero_image_index).map
            (fun img => img.url))]) :=
  ⟨(handlePriceUpdate_behavior okEnv 7 confirmingStore confirmingSession sampleExtraction
      "unclear" rfl rfl rfl (fun _ => rfl)).1 (by decide),
   (handlePriceUpdate_behavior okEnv 7 confirmingStore confirmingSession sampleExtraction
      "6m" rfl rfl rfl (fun _ => rfl)).2 (by decide)⟩


theorem sendOrCatch_crash_spec (env : Env) (m : Msg) (eff : Effects) (s : Store)
    (hlog : eff.errorLogs = []) (hsent : eff.sent = []) :
    "Error processing session" ∈ (sendOrCatch env m eff s).2.1.errorLogs →
      (sendOrCatch env m eff s).1.session = none ∧
      (env.sendOk Msg.processingError = true →
        (sendOrCatch env m eff s).2.1.sent = [Msg.processingError]) := by
  by_cases hok : env.sendOk m = true
  · rw [sendOrCatch_ok hok]
    simp [hlog]
  · rw [sendOrCatch_fail (by simpa using hok)]
    intro _
    constructor
    · rw [processCatch_store]
    · intro hpe
      rw [processCatch_spec_ok hpe]
      simp [hsent]

theorem confirmCatch_crash_spec (env : Env) (eff : Effects) (s : Store)
    (hsent : eff.sent = []) :
    (confirmCatch env s eff).1 = s ∧
    (env.sendOk Msg.processingError = true →
      (confirmCatch env s eff).2.1.sent = [Msg.processingError]) := by
  refine ⟨confirmCatch_store env s eff, fun hpe => ?_⟩
  rw [confirmCatch_spec_ok hpe]
  simp [hsent]

theorem sendThenClear_crash_spec (env : Env) (m : Msg) (eff : Effects) (s : Store)
    (hlog : eff.errorLogs = []) (hsent : eff.sent = []) :
    "Error confirming listing" ∈ (sendThenClear env m eff s).2.1.errorLogs →
      (sendThenClear env m eff s).1 = s ∧
      (env.sendOk Msg.processingError = true →
        (sendThenClear env m eff s).2.1.sent = [Msg.processingError]) := by
  unfold sendThenClear
  by_cases hok : env.sendOk m = true
  · simp [sendMessage, hok, hlog]
  · simp only [sendMessage, hok, Bool.false_eq_true, if_false]
    intro _
    exact confirmCatch_crash_spec env eff s hsent

/-- C6 counterexample: an unexpected error inside `handleConfirmation`
(here the listing insert throwing) reaches the catch block, which sends
the generic failure message but does NOT delete the session — the store is
left exactly as it was, contradicting the claim that the session is
deleted on any caught error in `onAffirm`. -/
theorem handleConfirmation_error_keeps_session :
    "Error confirming listing" ∈
      (handleConfirmation failListingEnv 7 confirmingStore).2.1.errorLogs ∧
    (handleConfirmation failListingEnv 7 confirmingStore).1 = confirmingStore ∧
    confirmingStore.session.isSome = true := by
  exact ⟨by decide, by decide, by decide⟩

/-- C6 amended: any unexpected error inside `processSession`'s pipeline
body is caught (witnessed by its catch-block log line): the session is
deleted and, when the generic-failure send succeeds, exactly that one
generic failure message is sent.  In `handleConfirmation` the catch sends
the same single generic failure message but leaves the store — and hence
the session — exactly unchanged, rather than deleting it. -/
theorem orchestrator_error_handling (env : Env) (now : Nat) (s : Store) :
    (("Error processing session" ∈ (processSession env now s).2.1.errorLogs) →
      (processSession env now s).1.session = none ∧
      (env.sendOk Msg.processingError = true →
        (processSession env now s).2.1.sent = [Msg.processingError])) ∧
    (("Error confirming listing" ∈ (handleConfirmation env now s).2.1.errorLogs) →
      (handleConfirmation env now s).1 = s ∧
      (env.sendOk Msg.processingError = true →
        (handleConfirmation env now s).2.1.sent = [Msg.processingError])) := by
  constructor
  · unfold processSession
    cases hgs : getSession s with
    | none => simp
    | some sess =>
      by_cases hcol : sess.status = Status.collecting
      · by_cases hlt : sess.images.length < MIN_IMAGES
        · simp only [hcol, ne_eq, not_true_eq_false, Bool.false_eq_true, if_false, ite_false,
            hlt, if_true, ite_true]
          exact sendOrCatch_crash_spec env _ _ _ rfl rfl
        · by_cases htrim : MAX_IMAGES < sess.images.length
          · have hnle : ¬ sess.images.length ≤ MAX_IMAGES := Nat.not_le.mpr htrim
            simp [hcol, hlt, htrim, hnle, deleteExcessImages, deleteImages, recordExtraction,
              deleteSessionImages, updateSessionStatus, saveSession, clearSession,
              setExtractedData]
            split <;> exact sendOrCatch_crash_spec env _ _ _ rfl rfl
          · simp [hcol, hlt, htrim, recordExtraction, deleteSessionImages,
              updateSessionStatus, saveSession, clearSession, setExtractedData]
            split <;> exact sendOrCatch_crash_spec env _ _ _ rfl rfl
      · simp [hcol]
  · unfold handleConfirmation
    cases hgs : getSession s with
    | none => simp
    | some sess =>
      cases hed : sess.extracted_data with
      | none => simp [hed]
      | some data =>
        simp only [hed]
        by_cases hcf : sess.status = Status.confirming
        · simp only [hcf, ne_eq, not_true_eq_false, Bool.false_eq_true, if_false, ite_false]
          rcases hfd : env.findDealer with e | d
          · intro _
            exact confirmCatch_crash_spec env {} s rfl
          · rcases d with _ | did
            · exact sendThenClear_crash_spec env _ _ _ rfl rfl
            · rcases hcl : env.createListing with e | lid
              · intro _
                exact confirmCatch_crash_spec env {} s rfl
              · by_cases hcm : env.createMediaOk = false
                · simp only [hcm, if_true, ite_true]
                  intro _
                  exact confirmCatch_crash_spec env _ s rfl
                · simp only [hcm, Bool.false_eq_true, if_false, ite_false]
                  exact sendThenClear_crash_spec env _ _ _ rfl rfl
        · simp [hcf]

/-- C6 witness: a failing confirmation-prompt send exercises
`processSession`'s catch (session deleted, one generic failure sent); a
throwing listing insert exercises `handleConfirmation`'s catch (store
unchanged, one generic failure sent). -/
theorem orchestrator_error_handling_witness :
    ((processSession failConfirmSendEnv 7 (collectingStore 5)).1.session = none ∧
      (processSession failConfirmSendEnv 7 (collectingStore 5)).2.1.sent =
        [Msg.processingError]) ∧
    ((handleConfirmation failListingEnv 7 confirmingStore).1 = confirmingStore ∧
      (handleConfirmation failListingEnv 7 confirmingStore).2.1.sent =
        [Msg.processingError]) := by
  refine ⟨?_, ?_⟩
  · have h := (orchestrator_error_handling failConfirmSendEnv 7 (collectingStore 5)).1
      (by decide)
    exact ⟨h.1, h.2 rfl⟩
  · have h := (orchestrator_error_handling failListingEnv 7 confirmingStore).2 (by decide)
    exact ⟨h.1, h.2 rfl⟩


theorem sendOrCatch_sent_sub (env : Env) (m : Msg) (eff : Effects) (s : Store) :
    (sendOrCatch env m eff s).2.1.sent = eff.sent ++ [m] ∨
    (sendOrCatch env m eff s).2.1.sent = eff.sent ++ [Msg.processingError] ∨
    (sendOrCatch env m eff s).2.1.sent = eff.sent := by
  by_cases hok : env.sendOk m = true
  · left
    rw [sendOrCatch_ok hok]
  · rw [sendOrCatch_fail (by simpa using hok)]
    unfold processCatch
    by_cases hpe : env.sendOk Msg.processingError = true
    · right
      left
      simp [sendMessage, logError, hpe]
    · right
      right
      simp [sendMessage, logError, hpe]

theorem extractVehicleData_hero_bounds (gem : Except Unit PartialExtraction) (curYear : Int)
    (images : List SessionImage) :
    0 ≤ (extractVehicleData gem curYear images).hero_image_index ∧
    ((0:Int) < images.length →
      (extractVehicleData gem curYear images).hero_image_index < (images.length : Int)) := by
  cases gem with
  | error e => simp [extractVehicleData, fallbackExtraction]
  | ok p =>
    simp only [extractVehicleData, validateExtraction]
    constructor
    · split <;> omega
    · intro hpos
      split <;> omega

theorem processSession_confirmation_url (env : Env) (now : Nat) (s : Store)
    (e : VehicleExtraction) (cnt : Nat) (url : Option String)
    (hmem : Msg.confirmation e cnt url ∈ (processSession env now s).2.1.sent) :
    url.isSome = true := by
  revert hmem
  unfold processSession
  cases hgs : getSession s with
  | none =>
    intro hmem
    simp at hmem
  | some sess =>
    by_cases hcol : sess.status = Status.collecting
    · by_cases hlt : sess.images.length < MIN_IMAGES
      · simp only [hcol, ne_eq, not_true_eq_false, Bool.false_eq_true, if_false, ite_false,
          hlt, if_true, ite_true]
        intro hmem
        rcases sendOrCatch_sent_sub env _ _ _ with h | h | h <;> rw [h] at hmem <;>
          simp [deleteSessionImages, recordExtraction] at hmem
      · by_cases htrim : MAX_IMAGES < sess.images.length
        · have hnle : ¬ sess.images.length ≤ MAX_IMAGES := Nat.not_le.mpr htrim
          have hb := extractVehicleData_hero_bounds
            (env.gemini sess.text_buffer (sess.images.take MAX_IMAGES)) env.curYear
            (sess.images.take MAX_IMAGES)
          have hlen : 0 < (sess.images.take MAX_IMAGES).length := by
            simp only [List.length_take]
            simp only [MAX_IMAGES] at htrim ⊢
            omega
          simp [hcol, hlt, htrim, hnle, deleteExcessImages, deleteImages, recordExtraction,
            deleteSessionImages, updateSessionStatus, saveSession, clearSession,
            setExtractedData]
          split
          · intro hmem
            rcases sendOrCatch_sent_sub env _ _ _ with h | h | h <;> rw [h] at hmem <;>
              simp [deleteSessionImages, recordExtraction] at hmem
          · intro hmem
            rcases sendOrCatch_sent_sub env _ _ _ with h | h | h
            · rw [h] at hmem
              simp only [List.nil_append, List.mem_singleton, Msg.confirmation.injEq] at hmem
              obtain ⟨he2, hcnt2, hurl⟩ := hmem
              subst hurl
              simp only [Option.isSome_map']
              unfold jsIndex
              rw [if_pos hb.1]
              have hlt2 := hb.2 (by exact_mod_cast hlen)
              simp only [List.get?_eq_getElem?, Option.isSome_iff_ne_none, ne_eq,
                List.getElem?_eq_none_iff, not_le]
              omega
            · rw [h] at hmem
              simp [deleteSessionImages, recordExtraction] at hmem
            · rw [h] at hmem
              simp [deleteSessionImages, recordExtraction] at hmem
        · have hb := extractVehicleData_hero_bounds
            (env.gemini sess.text_buffer sess.images) env.curYear sess.images
          have hlen : 0 < sess.images.length := by
            simp only [MIN_IMAGES] at hlt
            omega
          simp [hcol, hlt, htrim, recordExtraction, deleteSessionImages,
            updateSessionStatus, saveSession, clearSession, setExtractedData]
          split
          · intro hmem
            rcases sendOrCatch_sent_sub env _ _ _ with h | h | h <;> rw [h] at hmem <;>
              simp [deleteSessionImages, recordExtraction] at hmem
          · intro hmem
            rcases sendOrCatch_sent_sub env _ _ _ with h | h | h
            · rw [h] at hmem
              simp only [List.nil_append, List.mem_singleton, Msg.confirmation.injEq] at hmem
              obtain ⟨he2, hcnt2, hurl⟩ := hmem
              subst hurl
              simp only [Option.isSome_map']
              unfold jsIndex
              rw [if_pos hb.1]
              have hlt2 := hb.2 (by exact_mod_cast hlen)
              simp only [List.get?_eq_getElem?, Option.isSome_iff_ne_none, ne_eq,
                List.getElem?_eq_none_iff, not_le]
              omega
            · rw [h] at hmem
              simp [deleteSessionImages, recordExtraction] at hmem
            · rw [h] at hmem
              simp [deleteSessionImages, recordExtraction] at hmem
    · simp [hcol]

/-- C10: every `VehicleExtraction` produced by `extractVehicleData`
(including the failure fallback) has its hero image index clamped into
bounds: it is non-negative, and strictly below the image count whenever
images are present; consequently every confirmation prompt that
`processSession` sends carries a present hero image URL — the lookup of
the kept image list at the hero index never reads past the end. -/
theorem extraction_hero_index_safe (gem : Except Unit PartialExtraction) (curYear : Int)
    (images : List SessionImage) (env : Env) (now : Nat) (s : Store)
    (e : VehicleExtraction) (cnt : Nat) (url : Option String)
    (hmem : Msg.confirmation e cnt url ∈ (processSession env now s).2.1.sent) :
    0 ≤ (extractVehicleData gem curYear images).hero_image_index ∧
    ((0:Int) < images.length →
      (extractVehicleData gem curYear images).hero_image_index < (images.length : Int)) ∧
    url.isSome = true :=
  ⟨(extractVehicleData_hero_bounds gem curYear images).1,
   (extractVehicleData_hero_bounds gem curYear images).2,
   processSession_confirmation_url env now s e cnt url hmem⟩

/-- C10 witness: the bounds at a concrete extraction over five images, and
the present hero URL of the confirmation prompt actually sent by a
concrete pipeline run. -/
theorem extraction_hero_index_safe_witness :
    (0 ≤ (extractVehicleData (Except.ok {}) 2026 (mkImgs 5)).hero_image_index ∧
      ((0:Int) < (mkImgs 5).length →
        (extractVehicleData (Except.ok {}) 2026 (mkImgs 5)).hero_image_index <
          ((mkImgs 5).length : Int)) ∧
      (some "u0" : Option String).isSome = true) :=
  extraction_hero_index_safe (Except.ok {}) 2026 (mkImgs 5) okEnv 7 (collectingStore 5)
    (extractVehicleData (okEnv.gemini ["hello"] (mkImgs 5)) okEnv.curYear (mkImgs 5)) 5
    (some "u0") (by decide)


/-! ## Invariant preservation -/

theorem storeInv_none {s : Store} (h : s.session = none) : StoreInv s := by
  intro d hd
  rw [h] at hd
  cases hd

theorem storeInv_of_collecting_none {s : Store}
    (h : ∀ d, s.session = some d → d.status = Status.collecting ∧ d.extracted_data = none) :
    StoreInv s := by
  intro d hd
  obtain ⟨hst, hex⟩ := h d hd
  refine ⟨fun _ => hex, fun hcf => ?_, ?_, ?_⟩
  · rw [hst] at hcf
    cases hcf
  · rw [hst]
    exact fun hc => Status.noConfusion hc
  · rw [hst]
    exact fun hc => Status.noConfusion hc

theorem storeInv_setDebounceTimer {s : Store} (h : StoreInv s) :
    StoreInv (setDebounceTimer s) :=
  fun d hd => h d hd

theorem addTextToBuffer_inv (now : Nat) (t : String) {s : Store} (hInv : StoreInv s) :
    StoreInv (addTextToBuffer now t s).2 := by
  unfold addTextToBuffer
  cases hgs : getSession s with
  | none =>
    apply storeInv_of_collecting_none
    intro d hd
    simp [createSession, saveSession, freshSession] at hd
    subst hd
    exact ⟨rfl, rfl⟩
  | some sess =>
    by_cases hcol : sess.status = Status.collecting
    · apply storeInv_of_collecting_none
      intro d hd
      simp [hcol, saveSession] at hd
      subst hd
      exact ⟨rfl, (hInv sess hgs).1 hcol⟩
    · apply storeInv_of_collecting_none
      intro d hd
      simp [hcol, createSession, saveSession, freshSession] at hd
      subst hd
      exact ⟨rfl, rfl⟩

theorem addImageToBuffer_inv (now : Nat) (img : SessionImage) {s : Store} (hInv : StoreInv s) :
    StoreInv (addImageToBuffer now img s).2 := by
  unfold addImageToBuffer
  cases hgs : getSession s with
  | none =>
    apply storeInv_of_collecting_none
    intro d hd
    simp [createSession, saveSession, freshSession] at hd
    subst hd
    exact ⟨rfl, rfl⟩
  | some sess =>
    by_cases hcol : sess.status = Status.collecting
    · apply storeInv_of_collecting_none
      intro d hd
      simp [hcol, saveSession] at hd
      subst hd
      exact ⟨rfl, (hInv sess hgs).1 hcol⟩
    · apply storeInv_of_collecting_none
      intro d hd
      simp [hcol, createSession, saveSession, freshSession] at hd
      subst hd
      exact ⟨rfl, rfl⟩

theorem handlePriceUpdate_inv (env : Env) (now : Nat) (s : Store) (t : String)
    (hInv : StoreInv s) : StoreInv (handlePriceUpdate env now s t).1 := by
  unfold handlePriceUpdate
  cases hgs : getSession s with
  | none => exact hInv
  | some sess =>
    cases hed : sess.extracted_data with
    | none =>
      simp only [hed]
      exact hInv
    | some data =>
      simp only [hed]
      split
      · exact hInv
      next hcf =>
        cases hpr : parsePrice t with
        | none =>
          rw [sendOrThrow_store]
          exact hInv
        | some p =>
          rw [sendOrThrow_store]
          have hgs2 : s.session = some sess := hgs
          intro d hd
          simp only [setExtractedData, getSession, hgs2, saveSession,
            Option.some.injEq] at hd
          cases hd
          have hv : data.valid_listing = true := by
            obtain ⟨e, he, hv⟩ := (hInv sess hgs).2.1 (not_not.mp hcf)
            rw [hed] at he
            cases he
            exact hv
          exact ⟨fun hc => Status.noConfusion hc,
                 fun _ => ⟨{ data with price := some p }, rfl, hv⟩,
                 fun hc => Status.noConfusion hc, fun hc => Status.noConfusion hc⟩

theorem handleTextMessage_inv (env : Env) (now : Nat) (s : Store) (t : String)
    (hInv : StoreInv s) : StoreInv (handleTextMessage env now s t).1 := by
  unfold handleTextMessage
  cases hgs : getSession s with
  | none =>
    simp only [Bool.false_eq_true, if_false, ite_false]
    split
    · rw [sendOrThrow_store]
      exact hInv
    · simp only [if_true, ite_true]
      exact storeInv_setDebounceTimer (addTextToBuffer_inv now t hInv)
  | some sess =>
    by_cases hpb : (sess.status == Status.confirming && sess.extracted_data.isSome &&
        looksLikePrice t) = true
    · simp only [hpb, if_true, ite_true]
      exact handlePriceUpdate_inv env now s t hInv
    · simp only [hpb, Bool.false_eq_true, if_false, ite_false]
      split
      · rw [sendOrThrow_store]
        exact hInv
      · by_cases hcb : (sess.status == Status.collecting) = true
        · simp only [hcb, if_true, ite_true]
          exact storeInv_setDebounceTimer (addTextToBuffer_inv now t hInv)
        · simp only [hcb, Bool.false_eq_true, if_false, ite_false]
          exact hInv

theorem handleImageMessage_inv (env : Env) (now : Nat) (s : Store) (mediaId : String)
    (hInv : StoreInv s) : StoreInv (handleImageMessage env now s mediaId).1 := by
  unfold handleImageMessage
  split
  · exact hInv
  · cases hup : env.upload mediaId with
    | error e => exact hInv
    | ok img => exact storeInv_setDebounceTimer (addImageToBuffer_inv now img hInv)

theorem handleConfirmation_inv (env : Env) (now : Nat) (s : Store)
    (hInv : StoreInv s) : StoreInv (handleConfirmation env now s).1 := by
  unfold handleConfirmation
  cases hgs : getSession s with
  | none => exact hInv
  | some sess =>
    cases hed : sess.extracted_data with
    | none =>
      simp only [hed]
      exact hInv
    | some data =>
      simp only [hed]
      split
      · exact hInv
      · cases hfd : env.findDealer with
        | error e =>
          try simp only [hfd]
          rw [confirmCatch_store]
          exact hInv
        | ok d =>
          try simp only [hfd]
          cases d with
          | none =>
            rcases sendThenClear_store env (Msg.text dealerNotFoundText) {} s with h | h <;>
              rw [h]
            · exact storeInv_none rfl
            · exact hInv
          | some did =>
            cases hcl : env.createListing with
            | error e =>
              try simp only [hcl]
              rw [confirmCatch_store]
              exact hInv
            | ok lid =>
              try simp only [hcl]
              split
              · rw [confirmCatch_store]
                exact hInv
              · rcases sendThenClear_store env
                    (Msg.listingCreated data.make data.model data.year) _ s with h | h <;>
                  rw [h]
                · exact storeInv_none rfl
                · exact hInv

theorem handleCancellation_inv (env : Env) (s : Store) :
    StoreInv (handleCancellation env s).1 := by
  unfold handleCancellation
  rw [sendOrThrow_store]
  exact storeInv_none rfl

theorem handleEditPrice_inv (env : Env) (s : Store) (hInv : StoreInv s) :
    StoreInv (handleEditPrice env s).1 := by
  unfold handleEditPrice
  rw [sendOrThrow_store]
  exact hInv

theorem processSession_inv (env : Env) (now : Nat) (s : Store) (hInv : StoreInv s) :
    StoreInv (processSession env now s).1 := by
  cases hgs : s.session with
  | none =>
    rw [processSession_noop env now s (fun d hd => by rw [hgs] at hd; cases hd)]
    exact hInv
  | some sess =>
    by_cases hcol : sess.status = Status.collecting
    · rcases processSession_collecting_cases env now s hgs hcol with hnone | ⟨e, hv, hconf⟩
      · exact storeInv_none hnone
      · intro d hd
        rw [hconf] at hd
        cases hd
        exact ⟨fun hc => Status.noConfusion hc, fun _ => ⟨e, rfl, hv⟩,
               fun hc => Status.noConfusion hc, fun hc => Status.noConfusion hc⟩
    · rw [processSession_noop env now s
        (fun d hd => by rw [hgs] at hd; cases hd; exact hcol)]
      exact hInv

/-- C3: in every reachable store state, a stored collecting session has no
extracted result attached; a stored confirming session has a present
extracted result marked valid; and no stored session ever carries a
terminal completed/cancelled status — finalization and cancellation delete
the record instead of marking it. -/
theorem reachable_store_invariant (s : Store) (h : Reachable s) : StoreInv s := by
  induction h with
  | init => exact storeInv_none rfl
  | text env now t hr ih => exact handleTextMessage_inv env now _ t ih
  | image env now mediaId hr ih => exact handleImageMessage_inv env now _ mediaId ih
  | confirm env now hr ih => exact handleConfirmation_inv env now _ ih
  | cancel env hr ih => exact handleCancellation_inv env _
  | editPrice env hr ih => exact handleEditPrice_inv env _ ih
  | priceUpdate env now t hr ih => exact handlePriceUpdate_inv env now _ t ih
  | process env now hr ih => exact processSession_inv env now _ ih

/-- C3 witness: the invariant at the concrete reachable store obtained by
five inbound images followed by one expiry run (a confirming session with
a valid extraction attached). -/
theorem reachable_store_invariant_witness : StoreInv (processSession okEnv 7 reach5).1 :=
  reachable_store_invariant _
    (Reachable.process okEnv 7
      (Reachable.image okEnv 5 "m"
        (Reachable.image okEnv 4 "m"
          (Reachable.image okEnv 3 "m"
            (Reachable.image okEnv 2 "m"
              (Reachable.image okEnv 1 "m" Reachable.init))))))

end Sambo
